import Mathlib

/-!
Shallow embedding of the cross-chain credential system:
  - `Issuer` contract (src/contracts/src/Issuer.sol, also src/unnamed/part_000):
    issueCredential, batchIssueCredentials, revokeCredential, setMirrorContract;
  - `Mirror` contract (src/contracts/src/Mirror.sol):
    receiveAndVerifyVAA, revokeCredential;
  - relayer driver (src/listener/listener.js):
    fetchVAAWithRetry, relayVAA, pollAndReschedule.

Modelling conventions:
  - machine words are `Nat` (no arithmetic in the contracts can overflow on the
    inputs considered; `keccak256` digests are modelled as naturals);
  - `address` is `Nat`, with `0` standing for `address(0)`;
  - `keccak256(abi.encodePacked(s))` is modelled by an injective encoding of the
    byte/char string into `Nat` (the standard collision-freeness assumption);
  - a Solidity `require(cond, msg)` failure reverts the whole transaction, so
    every external entry point returns `Except Error State`; an `.error` result
    leaves the caller's state unchanged (the `run*` wrappers make this explicit);
  - mappings are functions out of the key type, updated pointwise.
-/

namespace CredentialBridge

abbrev Address := Nat
abbrev Hash := Nat
abbrev Bytes := List Nat

/-- `keccak256` over a byte string, modelled as an injective encoding into `Nat`
(pairing-function fold). Only injectivity is relied upon. -/
def keccakBytes : Bytes → Hash
  | [] => 0
  | b :: t => Nat.pair b (keccakBytes t) + 1

/-- `keccak256(abi.encodePacked(cid))` for a string `cid`. -/
def keccakString (s : String) : Hash :=
  keccakBytes (s.data.map Char.toNat)

theorem keccakBytes_injective : Function.Injective keccakBytes := by
  intro a b h
  induction a generalizing b with
  | nil => cases b with
    | nil => rfl
    | cons y ys => simp [keccakBytes] at h
  | cons x xs ih => cases b with
    | nil => simp [keccakBytes] at h
    | cons y ys =>
      simp only [keccakBytes, Nat.add_right_cancel_iff] at h
      have h2 := Nat.pair_eq_pair.mp h
      rw [h2.1, ih h2.2.symm.symm]

/-! ## Mirror contract (destination-side Verifier), src/contracts/src/Mirror.sol -/

/-- `uint16 public constant SOURCE_CHAIN_ID = 10002` in Mirror.sol. -/
def SOURCE_CHAIN_ID : Nat := 10002

/-- The fields of `IWormhole.VM` that `Mirror.receiveAndVerifyVAA` reads.
The payload is kept in decoded form `(address originalIssuer, bytes32 cidHash)`,
matching the `abi.decode(vm.payload, (address, bytes32))` in the contract. -/
structure VM where
  emitterChainId : Nat
  emitterAddress : Hash
  payload : Address × Hash
deriving DecidableEq, Repr

/-- Environment of the Mirror contract: the core-bridge verification primitive
`parseAndVerifyVM` (returning the parsed message and the validity bit) and the
immutable `trustedSourceContract`. -/
structure MirrorEnv where
  parse : Bytes → VM × Bool
  trustedSourceContract : Hash

/-- Revert reasons of the Mirror contract (`require` messages). -/
inductive MirrorError where
  /-- "Invalid VAA" -/
  | invalidVAA
  /-- "Invalid source chain" -/
  | wrongSourceChain
  /-- "Untrusted source contract" -/
  | untrustedEmitter
  /-- "VAA already processed" -/
  | alreadyProcessed
  /-- "Credential does not exist" -/
  | notFound
  /-- "Credential already revoked" -/
  | alreadyRevoked
  /-- `onlyOwner` failure -/
  | notOwner
deriving DecidableEq, Repr

/-- Storage of the Mirror contract. -/
structure MirrorState where
  cidIssuer : Hash → Address
  processedVaas : Hash → Bool
  isRevoked : Hash → Bool
  owner : Address

/-- `Mirror.receiveAndVerifyVAA(bytes calldata _vaa)`:
parse/verify via the core bridge, check source chain and emitter, replay-guard
on `keccak256(_vaa)`, then decode the payload and store `cidIssuer[cidHash]`. -/
def receiveAndVerifyVAA (env : MirrorEnv) (vaa : Bytes) (st : MirrorState) :
    Except MirrorError MirrorState :=
  if (env.parse vaa).2 = false then .error .invalidVAA
  else if (env.parse vaa).1.emitterChainId ≠ SOURCE_CHAIN_ID then .error .wrongSourceChain
  else if (env.parse vaa).1.emitterAddress ≠ env.trustedSourceContract then .error .untrustedEmitter
  else if st.processedVaas (keccakBytes vaa) then .error .alreadyProcessed
  else .ok
    { cidIssuer := fun h =>
        if h = (env.parse vaa).1.payload.2 then (env.parse vaa).1.payload.1 else st.cidIssuer h,
      processedVaas := fun h => if h = keccakBytes vaa then true else st.processedVaas h,
      isRevoked := st.isRevoked,
      owner := st.owner }

/-- `Mirror.revokeCredential(string calldata _cid)` (`onlyOwner`). -/
def mirrorRevokeCredential (caller : Address) (cid : String) (st : MirrorState) :
    Except MirrorError MirrorState :=
  if caller ≠ st.owner then .error .notOwner
  else if st.cidIssuer (keccakString cid) = 0 then .error .notFound
  else if st.isRevoked (keccakString cid) then .error .alreadyRevoked
  else .ok { st with isRevoked := fun h => if h = keccakString cid then true else st.isRevoked h }

/-- Run a Mirror call as a ledger transaction: a revert leaves storage unchanged. -/
def runMirror (act : MirrorState → Except MirrorError MirrorState) (st : MirrorState) :
    MirrorState :=
  match act st with
  | .ok st' => st'
  | .error _ => st

/-- Repeated submission of the same attestation bytes, `n` transactions in a row. -/
def submitRepeat (env : MirrorEnv) (vaa : Bytes) (st : MirrorState) : Nat → MirrorState
  | 0 => st
  | n + 1 => runMirror (receiveAndVerifyVAA env vaa) (submitRepeat env vaa st n)

/-! ## Issuer contract (source-side Emitter), src/contracts/src/Issuer.sol -/

/-- Revert reasons of the Issuer contract (`require` messages). -/
inductive IssuerError where
  /-- "Credential for this content already issued" -/
  | duplicateContent
  /-- "Credential already issued for this CID" -/
  | duplicateIdentifier
  /-- "Insufficient value for message fee" -/
  | insufficientFee
  /-- "Empty CIDs array" -/
  | emptyBatch
  /-- "Too many CIDs in batch" -/
  | batchTooLarge
  /-- "CIDs and content hashes arrays must have same length" -/
  | lengthMismatch
  /-- "Insufficient value for batch message fees" -/
  | insufficientBatchFee
  /-- "Credential does not exist" -/
  | notFound
  /-- "Credential already revoked" -/
  | alreadyRevoked
  /-- "Cannot set mirror to the zero address" -/
  | zeroMirror
  /-- `onlyOwner` failure -/
  | notOwner
deriving DecidableEq, Repr

/-- Storage of the Issuer contract, plus the Wormhole core bridge's per-emitter
sequence counter (`publishMessage` returns `nextSequence` and increments it). -/
structure IssuerState where
  cidIssuer : Hash → Address
  isRevoked : Hash → Bool
  contentHashIssued : Hash → Bool
  targetMirrorContract : Address
  owner : Address
  nextSequence : Nat

/-- `Issuer._issueSingleCredential(string _cid, bytes32 _contentHash, uint256 _messageFee)`:
content-hash duplicate check first, then CID duplicate check, then record both
bindings and publish the cross-chain message (returning its sequence number). -/
def issueSingleCredential (sender : Address) (cid : String) (contentHash : Hash)
    (st : IssuerState) : Except IssuerError (IssuerState × Nat) :=
  if st.contentHashIssued contentHash then .error .duplicateContent
  else if st.cidIssuer (keccakString cid) ≠ 0 then .error .duplicateIdentifier
  else
    .ok ({ st with
            contentHashIssued := fun h => if h = contentHash then true else st.contentHashIssued h,
            cidIssuer := fun h => if h = keccakString cid then sender else st.cidIssuer h,
            nextSequence := st.nextSequence + 1 },
         st.nextSequence)

/-- `Issuer.issueCredential(string _cid, bytes32 _contentHash)` (payable):
`fee` is the bridge's `wormhole.messageFee()` at call time, `value` is `msg.value`. -/
def issueCredential (sender : Address) (value fee : Nat) (cid : String)
    (contentHash : Hash) (st : IssuerState) : Except IssuerError (IssuerState × Nat) :=
  if value < fee then .error .insufficientFee
  else issueSingleCredential sender cid contentHash st

/-- The loop body of `batchIssueCredentials`: `_issueSingleCredential` on each
pair in order, collecting the returned sequence numbers; any failure reverts. -/
def batchIssueLoop (sender : Address) (pairs : List (String × Hash))
    (st : IssuerState) : Except IssuerError (IssuerState × List Nat) :=
  match pairs with
  | [] => .ok (st, [])
  | (cid, h) :: rest =>
    match issueSingleCredential sender cid h st with
    | .error e => .error e
    | .ok (st1, seq) =>
      match batchIssueLoop sender rest st1 with
      | .error e => .error e
      | .ok (st2, seqs) => .ok (st2, seq :: seqs)

/-- `Issuer.batchIssueCredentials(string[] _cids, bytes32[] _contentHashes)`
(payable): non-empty, at most 50, equal lengths, `msg.value >= fee * n`,
then `_issueSingleCredential` per pair within the one transaction. -/
def batchIssueCredentials (sender : Address) (value fee : Nat)
    (cids : List String) (contentHashes : List Hash) (st : IssuerState) :
    Except IssuerError (IssuerState × List Nat) :=
  if cids.length = 0 then .error .emptyBatch
  else if cids.length > 50 then .error .batchTooLarge
  else if cids.length ≠ contentHashes.length then .error .lengthMismatch
  else if value < fee * cids.length then .error .insufficientBatchFee
  else batchIssueLoop sender (cids.zip contentHashes) st

/-- `Issuer.revokeCredential(string calldata _cid)` (`onlyOwner`). -/
def issuerRevokeCredential (caller : Address) (cid : String) (st : IssuerState) :
    Except IssuerError IssuerState :=
  if caller ≠ st.owner then .error .notOwner
  else if st.cidIssuer (keccakString cid) = 0 then .error .notFound
  else if st.isRevoked (keccakString cid) then .error .alreadyRevoked
  else .ok { st with isRevoked := fun h => if h = keccakString cid then true else st.isRevoked h }

/-- `Issuer.setMirrorContract(address _targetMirror)` (`onlyOwner`). -/
def setMirrorContract (caller : Address) (targetMirror : Address) (st : IssuerState) :
    Except IssuerError IssuerState :=
  if caller ≠ st.owner then .error .notOwner
  else if targetMirror = 0 then .error .zeroMirror
  else .ok { st with targetMirrorContract := targetMirror }

/-- One external call to the Issuer contract, with its call context. -/
inductive IssuerOp where
  | issue (sender : Address) (value fee : Nat) (cid : String) (contentHash : Hash)
  | batchIssue (sender : Address) (value fee : Nat) (cids : List String) (contentHashes : List Hash)
  | revoke (caller : Address) (cid : String)
  | setMirror (caller : Address) (targetMirror : Address)

/-- Run one Issuer call as a ledger transaction: a revert leaves storage unchanged. -/
def applyIssuerOp (op : IssuerOp) (st : IssuerState) : IssuerState :=
  match op with
  | .issue sender value fee cid contentHash =>
    match issueCredential sender value fee cid contentHash st with
    | .ok (st', _) => st'
    | .error _ => st
  | .batchIssue sender value fee cids contentHashes =>
    match batchIssueCredentials sender value fee cids contentHashes st with
    | .ok (st', _) => st'
    | .error _ => st
  | .revoke caller cid =>
    match issuerRevokeCredential caller cid st with
    | .ok st' => st'
    | .error _ => st
  | .setMirror caller m =>
    match setMirrorContract caller m st with
    | .ok st' => st'
    | .error _ => st

/-- Run a sequence of Issuer transactions, oldest first. -/
def applyIssuerOps (ops : List IssuerOp) (st : IssuerState) : IssuerState :=
  match ops with
  | [] => st
  | op :: rest => applyIssuerOps rest (applyIssuerOp op st)

/-! ## Relayer driver, src/listener/listener.js

The attestation service is modelled as an oracle `svc : Nat → Option Bytes`
from the attempt number (1-based) to the response of that attempt: `none`
covers both a non-OK HTTP status and a response without the VAA ("VAA not yet
available in API response." — both are thrown and land in the same `catch`
that retries), `some vaa` a response carrying the attestation bytes. -/

/-- `const maxAttempts = 60` in `fetchVAAWithRetry`. -/
def maxAttempts : Nat := 60

/-- `const delayMs = 30000` in `fetchVAAWithRetry`; also the poll interval of
`setTimeout(pollAndReschedule, 30000)`. -/
def delayMs : Nat := 30000

/-- Failure of the attestation-acquisition stage. -/
inductive FetchError where
  /-- "Failed to fetch VAA after 60 attempts: ..." -/
  | exhausted
deriving DecidableEq, Repr

/-- The `for (let attempt = 1; attempt <= maxAttempts; attempt++)` loop of
`fetchVAAWithRetry`: return the bytes of the first attempt that yields them;
on a failed attempt, rethrow if it was the last attempt, else wait and retry. -/
def fetchLoop (svc : Nat → Option Bytes) : Nat → Nat → Except FetchError Bytes
  | _, 0 => .error .exhausted
  | attempt, 1 =>
    match svc attempt with
    | some vaa => .ok vaa
    | none => .error .exhausted
  | attempt, r + 2 =>
    match svc attempt with
    | some vaa => .ok vaa
    | none => fetchLoop svc (attempt + 1) (r + 1)

/-- `fetchVAAWithRetry(chainId, emitterAddress, sequence)`: run the attempt
loop starting at attempt 1 with `maxAttempts` attempts available. -/
def fetchVAAWithRetry (svc : Nat → Option Bytes) : Except FetchError Bytes :=
  fetchLoop svc 1 maxAttempts

/-- Outcome of `mirrorContract.receiveAndVerifyVAA(vaaHex)` + `tx.wait()` as
observed by `relayVAA`: confirmation, or a thrown error with its message. -/
inductive SubmitOutcome where
  | confirmed
  | failed (msg : String)

/-- `listPrefixOf p l` decides whether `p` is a prefix of `l`. -/
def listPrefixOf : List Char → List Char → Bool
  | [], _ => true
  | _ :: _, [] => false
  | a :: p, b :: l => a = b && listPrefixOf p l

/-- `strIncludes hay pat` models JavaScript's `hay.includes(pat)`. -/
def strIncludes (hay pat : String) : Bool :=
  go pat.data hay.data
where
  go (p l : List Char) : Bool :=
    match l with
    | [] => listPrefixOf p []
    | _ :: t => listPrefixOf p l || go p t

/-- `relayVAA(vaaBytes, mirrorContract, sequence)`: `true` on confirmation;
on a thrown error, `true` when the message contains "already known" or
"VAA already processed" (another relayer instance won the race), `false`
otherwise. The function catches every error and never throws. -/
def relayVAA (outcome : SubmitOutcome) : Bool :=
  match outcome with
  | .confirmed => true
  | .failed m =>
    if strIncludes m "already known" || strIncludes m "VAA already processed" then true
    else false

/-- Observable actions of the relayer's poll cycle, in execution order. -/
inductive RelayerAction where
  /-- `queryFilter("CrossChainMessageEmitted", fromBlock, latestBlock)` -/
  | scan (fromBlock toBlock : Nat)
  /-- one iteration of `fetchVAAWithRetry`'s loop for a sequence (a 30 s
  suspension precedes every attempt after the first) -/
  | fetchAttempt (seq attempt : Nat)
  /-- `fetchVAAWithRetry` threw after exhausting all attempts; the `catch`
  inside the event loop logs it and processing of this sequence ends -/
  | fetchExhausted (seq : Nat)
  /-- `relayVAA` returned `true` -/
  | deliverOk (seq : Nat)
  /-- `relayVAA` returned `false` -/
  | deliverFail (seq : Nat)
  /-- `lastCheckedBlock = latestBlock` -/
  | advanceCursor (toBlock : Nat)
  /-- `setTimeout(pollAndReschedule, 30000)` in the `finally` block -/
  | reschedule (delay : Nat)
deriving DecidableEq, Repr

/-- Is the action part of a per-sequence delivery (as opposed to discovery
bookkeeping: scanning, cursor advance, rescheduling)? -/
def isDeliveryAction : RelayerAction → Bool
  | .fetchAttempt .. => true
  | .fetchExhausted _ => true
  | .deliverOk _ => true
  | .deliverFail _ => true
  | _ => false

/-- Is the action one query of the Attestation Service? -/
def isFetchAttempt : RelayerAction → Bool
  | .fetchAttempt .. => true
  | _ => false

/-- Trace of `fetchVAAWithRetry`'s loop together with its result. -/
def fetchLoopTrace (svc : Nat → Option Bytes) (seq : Nat) :
    Nat → Nat → List RelayerAction × Option Bytes
  | _, 0 => ([], none)
  | attempt, 1 =>
    match svc attempt with
    | some vaa => ([.fetchAttempt seq attempt], some vaa)
    | none => ([.fetchAttempt seq attempt, .fetchExhausted seq], none)
  | attempt, r + 2 =>
    match svc attempt with
    | some vaa => ([.fetchAttempt seq attempt], some vaa)
    | none =>
      (.fetchAttempt seq attempt :: (fetchLoopTrace svc seq (attempt + 1) (r + 1)).1,
       (fetchLoopTrace svc seq (attempt + 1) (r + 1)).2)

/-- Environment of one poll cycle: the chain head, the sequences carried by
the events found in the scanned range, the per-sequence attestation oracle
(sequence → attempt → response) and the per-sequence submission outcome. -/
structure PollEnv where
  latestBlock : Nat
  events : List Nat
  svc : Nat → Nat → Option Bytes
  submit : Nat → SubmitOutcome

/-- Processing of one discovered event inside `pollAndReschedule`'s `for` loop:
`await fetchVAAWithRetry(...)` then `await relayVAA(...)`, all inline — the
loop does not continue (and the cursor does not advance) until this returns. -/
def processEventTrace (env : PollEnv) (seq : Nat) : List RelayerAction :=
  match (fetchLoopTrace (env.svc seq) seq 1 maxAttempts).2 with
  | none => (fetchLoopTrace (env.svc seq) seq 1 maxAttempts).1
  | some _ =>
    (fetchLoopTrace (env.svc seq) seq 1 maxAttempts).1 ++
      [if relayVAA (env.submit seq) then .deliverOk seq else .deliverFail seq]

/-- The `for (const event of events)` loop. `currentlyProcessing.add` runs
before processing and the `finally` block deletes the id again before the next
event is examined, so the set seen at each membership check equals the set the
loop started with. -/
def processEventsTrace (env : PollEnv) (inflight : List Nat) :
    List Nat → List RelayerAction
  | [] => []
  | seq :: rest =>
    if seq ∈ inflight then processEventsTrace env inflight rest
    else processEventTrace env seq ++ processEventsTrace env inflight rest

/-- One `pollAndReschedule` cycle: read the chain head; if it is at least
`lastCheckedBlock + 1`, scan that range, process every discovered event to
completion, then advance the cursor; in the `finally` block, reschedule the
next poll. Returns the trace and the new cursor. -/
def pollCycleTrace (env : PollEnv) (lastCheckedBlock : Nat) :
    List RelayerAction × Nat :=
  if lastCheckedBlock + 1 ≤ env.latestBlock then
    (RelayerAction.scan (lastCheckedBlock + 1) env.latestBlock ::
        processEventsTrace env [] env.events ++
        [.advanceCursor env.latestBlock, .reschedule delayMs],
      env.latestBlock)
  else
    ([.reschedule delayMs], lastCheckedBlock)

/-! ## Transaction runners for the Mirror contract -/

/-- One external call to the Mirror contract, with its call context. -/
inductive MirrorOp where
  | submitVAA (vaa : Bytes)
  | revoke (caller : Address) (cid : String)

/-- Run one Mirror call as a ledger transaction: a revert leaves storage unchanged. -/
def applyMirrorOp (env : MirrorEnv) (op : MirrorOp) (st : MirrorState) : MirrorState :=
  match op with
  | .submitVAA vaa => runMirror (receiveAndVerifyVAA env vaa) st
  | .revoke caller cid => runMirror (mirrorRevokeCredential caller cid) st

/-- Run a sequence of Mirror transactions, oldest first. -/
def applyMirrorOps (env : MirrorEnv) (ops : List MirrorOp) (st : MirrorState) : MirrorState :=
  match ops with
  | [] => st
  | op :: rest => applyMirrorOps env rest (applyMirrorOp env op st)

/-! ## Concrete fixtures used by witnesses and counterexamples -/

/-- Mirror storage right after deployment (owner `1`, all mappings empty). -/
def mirror0 : MirrorState :=
  { cidIssuer := fun _ => 0, processedVaas := fun _ => false,
    isRevoked := fun _ => false, owner := 1 }

/-- Issuer storage right after deployment (owner `1`, all mappings empty,
first bridge sequence `0`). -/
def issuer0 : IssuerState :=
  { cidIssuer := fun _ => 0, isRevoked := fun _ => false,
    contentHashIssued := fun _ => false, targetMirrorContract := 0,
    owner := 1, nextSequence := 0 }

/-- A core bridge whose every byte string parses as a valid message from
chain 10002, emitter `5`, with payload `(issuer 7, cidHash 9)`. -/
def envOk : MirrorEnv :=
  { parse := fun _ => ({ emitterChainId := SOURCE_CHAIN_ID, emitterAddress := 5,
                         payload := (7, 9) }, true),
    trustedSourceContract := 5 }

/-- A core bridge whose every byte string parses as valid but from the wrong
chain (`3` instead of 10002). -/
def envWrongChain : MirrorEnv :=
  { parse := fun _ => ({ emitterChainId := 3, emitterAddress := 5,
                         payload := (7, 9) }, true),
    trustedSourceContract := 5 }

/-- A core bridge distinguishing two attestations for the same `cidHash 9`:
`[2]` carries issuer `8`, everything else carries issuer `7`. -/
def envTwoIssuers : MirrorEnv :=
  { parse := fun vaa =>
      if vaa = [2] then ({ emitterChainId := SOURCE_CHAIN_ID, emitterAddress := 5,
                           payload := (8, 9) }, true)
      else ({ emitterChainId := SOURCE_CHAIN_ID, emitterAddress := 5,
              payload := (7, 9) }, true),
    trustedSourceContract := 5 }

/-- Mirror storage where `cidHash 9` is already mirrored to issuer `7` and
already revoked. -/
def mirrorRevoked9 : MirrorState :=
  { cidIssuer := fun h => if h = 9 then 7 else 0,
    processedVaas := fun _ => false,
    isRevoked := fun h => if h = 9 then true else false, owner := 1 }

/-- Mirror storage where the identifier "QmR" is mirrored to issuer `7` and
already revoked. -/
def mirrorRevokedQmR : MirrorState :=
  { cidIssuer := fun h => if h = keccakString "QmR" then 7 else 0,
    processedVaas := fun _ => false,
    isRevoked := fun h => if h = keccakString "QmR" then true else false,
    owner := 1 }

/-- Issuer storage after a successful `issueCredential("QmBBB", 100)` from
sender `2` (fee 1, value 1). -/
def issuerQmBBB : IssuerState :=
  applyIssuerOp (.issue 2 1 1 "QmBBB" 100) issuer0

/-- Poll-cycle environment: head at block 5, one event with sequence 7 whose
attestation becomes available on the second attempt, submission confirmed. -/
def envOneEvent : PollEnv :=
  { latestBlock := 5, events := [7],
    svc := fun _ attempt => if attempt ≥ 2 then some [1] else none,
    submit := fun _ => .confirmed }

/-! ## Lemmas on the Mirror contract -/

/-- On a valid, correctly-sourced, not-yet-processed attestation,
`receiveAndVerifyVAA` succeeds and its resulting storage is explicit. -/
theorem receive_ok (env : MirrorEnv) (vaa : Bytes) (st : MirrorState) (vm : VM)
    (hp : env.parse vaa = (vm, true))
    (hc : vm.emitterChainId = SOURCE_CHAIN_ID)
    (he : vm.emitterAddress = env.trustedSourceContract)
    (hn : st.processedVaas (keccakBytes vaa) = false) :
    receiveAndVerifyVAA env vaa st = .ok
      { cidIssuer := fun h => if h = vm.payload.2 then vm.payload.1 else st.cidIssuer h,
        processedVaas := fun h => if h = keccakBytes vaa then true else st.processedVaas h,
        isRevoked := st.isRevoked,
        owner := st.owner } := by
  simp [receiveAndVerifyVAA, hp, hc, he, hn]

/-- A valid, correctly-sourced attestation whose digest is already in the
processed set is rejected with `AlreadyProcessed`. -/
theorem receive_replay (env : MirrorEnv) (vaa : Bytes) (st : MirrorState) (vm : VM)
    (hp : env.parse vaa = (vm, true))
    (hc : vm.emitterChainId = SOURCE_CHAIN_ID)
    (he : vm.emitterAddress = env.trustedSourceContract)
    (hy : st.processedVaas (keccakBytes vaa) = true) :
    receiveAndVerifyVAA env vaa st = .error .alreadyProcessed := by
  simp [receiveAndVerifyVAA, hp, hc, he, hy]

/-- C1: a valid, correctly-sourced, first-time attestation is accepted and
creates the mirrored record (digest added to the processed set, issuer stored
under the payload's cid hash, revocation flags untouched); every later
submission of the same bytes fails with `AlreadyProcessed` and, the failure
reverting the transaction before any mutation, leaves storage unchanged, so
the state after `n ≥ 1` submissions equals the state after one. -/
theorem C1_replay_idempotence (env : MirrorEnv) (vaa : Bytes) (st : MirrorState) (vm : VM)
    (hp : env.parse vaa = (vm, true))
    (hc : vm.emitterChainId = SOURCE_CHAIN_ID)
    (he : vm.emitterAddress = env.trustedSourceContract)
    (hn : st.processedVaas (keccakBytes vaa) = false) :
    ∃ st', receiveAndVerifyVAA env vaa st = .ok st'
      ∧ st'.processedVaas (keccakBytes vaa) = true
      ∧ st'.cidIssuer vm.payload.2 = vm.payload.1
      ∧ st'.isRevoked = st.isRevoked
      ∧ receiveAndVerifyVAA env vaa st' = .error .alreadyProcessed
      ∧ runMirror (receiveAndVerifyVAA env vaa) st' = st'
      ∧ (∀ n, 1 ≤ n → submitRepeat env vaa st n = submitRepeat env vaa st 1) := by
  have hok := receive_ok env vaa st vm hp hc he hn
  have hrep : receiveAndVerifyVAA env vaa
      { cidIssuer := fun h => if h = vm.payload.2 then vm.payload.1 else st.cidIssuer h,
        processedVaas := fun h => if h = keccakBytes vaa then true else st.processedVaas h,
        isRevoked := st.isRevoked,
        owner := st.owner } = .error .alreadyProcessed :=
    receive_replay env vaa _ vm hp hc he (by simp)
  have hs1 : submitRepeat env vaa st 1 =
      { cidIssuer := fun h => if h = vm.payload.2 then vm.payload.1 else st.cidIssuer h,
        processedVaas := fun h => if h = keccakBytes vaa then true else st.processedVaas h,
        isRevoked := st.isRevoked,
        owner := st.owner } := by
    show runMirror (receiveAndVerifyVAA env vaa) st = _
    unfold runMirror
    rw [hok]
  refine ⟨_, hok, by simp, by simp, rfl, hrep, ?_, ?_⟩
  · unfold runMirror
    rw [hrep]
  · have h1 : ∀ n, submitRepeat env vaa st (n + 1) = submitRepeat env vaa st 1 := by
      intro n
      induction n with
      | zero => rfl
      | succ k ih =>
        show runMirror (receiveAndVerifyVAA env vaa) (submitRepeat env vaa st (k + 1)) = _
        rw [ih, hs1]
        unfold runMirror
        rw [hrep]
    intro n hn1
    obtain ⟨m, rfl⟩ := Nat.exists_eq_add_of_le hn1
    rw [Nat.add_comm]
    exact h1 m

/-- C1 witness: the universal replay-idempotence theorem instantiated at a
concrete bridge, attestation and fresh Mirror storage. -/
theorem C1_replay_idempotence_witness :
    ∃ st', receiveAndVerifyVAA envOk [1] mirror0 = .ok st'
      ∧ st'.processedVaas (keccakBytes [1]) = true
      ∧ st'.cidIssuer 9 = 7
      ∧ st'.isRevoked = mirror0.isRevoked
      ∧ receiveAndVerifyVAA envOk [1] st' = .error .alreadyProcessed
      ∧ runMirror (receiveAndVerifyVAA envOk [1]) st' = st'
      ∧ (∀ n, 1 ≤ n → submitRepeat envOk [1] mirror0 n = submitRepeat envOk [1] mirror0 1) :=
  C1_replay_idempotence envOk [1] mirror0
    { emitterChainId := SOURCE_CHAIN_ID, emitterAddress := 5, payload := (7, 9) }
    rfl rfl rfl rfl

/-- C3: an attestation that decodes to a wrong source chain or an untrusted
emitter is always rejected — whatever the validity bit — and the transaction
leaves the Verifier's storage unchanged; when the signature is valid the
revert reason is `WrongSourceChain` (resp. `UntrustedEmitter`). -/
theorem C3_provenance_rejection (env : MirrorEnv) (vaa : Bytes) (st : MirrorState)
    (vm : VM) (v : Bool) (hp : env.parse vaa = (vm, v))
    (hbad : vm.emitterChainId ≠ SOURCE_CHAIN_ID ∨
            vm.emitterAddress ≠ env.trustedSourceContract) :
    (∃ e, receiveAndVerifyVAA env vaa st = .error e)
    ∧ runMirror (receiveAndVerifyVAA env vaa) st = st
    ∧ (v = true → vm.emitterChainId ≠ SOURCE_CHAIN_ID →
        receiveAndVerifyVAA env vaa st = .error .wrongSourceChain)
    ∧ (v = true → vm.emitterChainId = SOURCE_CHAIN_ID →
        vm.emitterAddress ≠ env.trustedSourceContract →
        receiveAndVerifyVAA env vaa st = .error .untrustedEmitter) := by
  have herr : ∃ e, receiveAndVerifyVAA env vaa st = .error e := by
    cases v with
    | false => exact ⟨.invalidVAA, by simp [receiveAndVerifyVAA, hp]⟩
    | true =>
      by_cases hcc : vm.emitterChainId = SOURCE_CHAIN_ID
      · have hee : vm.emitterAddress ≠ env.trustedSourceContract := by
          rcases hbad with h | h
          · exact absurd hcc h
          · exact h
        exact ⟨.untrustedEmitter, by simp [receiveAndVerifyVAA, hp, hcc, hee]⟩
      · exact ⟨.wrongSourceChain, by simp [receiveAndVerifyVAA, hp, hcc]⟩
  refine ⟨herr, ?_, ?_, ?_⟩
  · obtain ⟨e, he⟩ := herr
    simp [runMirror, he]
  · intro hv hcc
    subst hv
    simp [receiveAndVerifyVAA, hp, hcc]
  · intro hv hcc hee
    subst hv
    simp [receiveAndVerifyVAA, hp, hcc, hee]

/-- C3 witness: a signature-valid attestation from chain 3 (expected 10002)
is rejected with `WrongSourceChain` and leaves the fresh storage unchanged. -/
theorem C3_provenance_rejection_witness :
    (∃ e, receiveAndVerifyVAA envWrongChain [1] mirror0 = .error e)
    ∧ runMirror (receiveAndVerifyVAA envWrongChain [1]) mirror0 = mirror0
    ∧ (true = true → (3 : Nat) ≠ SOURCE_CHAIN_ID →
        receiveAndVerifyVAA envWrongChain [1] mirror0 = .error .wrongSourceChain)
    ∧ (true = true → (3 : Nat) = SOURCE_CHAIN_ID → (5 : Nat) ≠ 5 →
        receiveAndVerifyVAA envWrongChain [1] mirror0 = .error .untrustedEmitter) :=
  C3_provenance_rejection envWrongChain [1] mirror0
    { emitterChainId := 3, emitterAddress := 5, payload := (7, 9) } true
    rfl (Or.inl (by decide))

/-- C10 (implicit): materialization performs no first-writer-wins and no
revocation check — for any valid, correctly-sourced, unprocessed attestation
the decoded issuer is written unconditionally over whatever `cidIssuer`
previously held for that cid hash, and the revocation flags (possibly already
`true` for that hash) are left exactly as they were. -/
theorem C10_unconditional_overwrite (env : MirrorEnv) (vaa : Bytes) (st : MirrorState)
    (vm : VM) (hp : env.parse vaa = (vm, true))
    (hc : vm.emitterChainId = SOURCE_CHAIN_ID)
    (he : vm.emitterAddress = env.trustedSourceContract)
    (hn : st.processedVaas (keccakBytes vaa) = false) :
    ∃ st', receiveAndVerifyVAA env vaa st = .ok st'
      ∧ st'.cidIssuer vm.payload.2 = vm.payload.1
      ∧ (∀ h, h ≠ vm.payload.2 → st'.cidIssuer h = st.cidIssuer h)
      ∧ st'.isRevoked = st.isRevoked
      ∧ st'.owner = st.owner := by
  refine ⟨_, receive_ok env vaa st vm hp hc he hn, by simp, ?_, rfl, rfl⟩
  intro h hne
  simp [hne]

/-- C10 witness: cid hash 9 is already mirrored to issuer 7 and revoked; a
fresh attestation carrying issuer 8 for the same hash replaces the stored
issuer while the revoked flag stays `true`. -/
theorem C10_unconditional_overwrite_witness :
    mirrorRevoked9.cidIssuer 9 = 7 ∧ mirrorRevoked9.isRevoked 9 = true ∧
    ∃ st', receiveAndVerifyVAA envTwoIssuers [2] mirrorRevoked9 = .ok st'
      ∧ st'.cidIssuer 9 = 8
      ∧ (∀ h, h ≠ 9 → st'.cidIssuer h = mirrorRevoked9.cidIssuer h)
      ∧ st'.isRevoked = mirrorRevoked9.isRevoked
      ∧ st'.owner = mirrorRevoked9.owner :=
  ⟨rfl, rfl,
    C10_unconditional_overwrite envTwoIssuers [2] mirrorRevoked9
      { emitterChainId := SOURCE_CHAIN_ID, emitterAddress := 5, payload := (8, 9) }
      (by simp [envTwoIssuers]) rfl rfl rfl⟩

/-! ## Lemmas on the Issuer contract -/

/-- Full characterization of a successful `_issueSingleCredential`: both
duplicate checks were clear, both bindings are recorded, the bridge sequence
is returned and incremented, and nothing else changes. -/
theorem issueSingle_ok_inv (s : Address) (c : String) (ch : Hash)
    (st st' : IssuerState) (q : Nat)
    (hk : issueSingleCredential s c ch st = .ok (st', q)) :
    st.contentHashIssued ch = false ∧ st.cidIssuer (keccakString c) = 0
    ∧ st' = { st with
        contentHashIssued := fun h => if h = ch then true else st.contentHashIssued h,
        cidIssuer := fun h => if h = keccakString c then s else st.cidIssuer h,
        nextSequence := st.nextSequence + 1 }
    ∧ q = st.nextSequence := by
  unfold issueSingleCredential at hk
  split at hk
  case isTrue h1 => exact absurd hk (by simp)
  case isFalse h1 =>
    split at hk
    case isTrue h2 => exact absurd hk (by simp)
    case isFalse h2 =>
      simp only [Except.ok.injEq, Prod.mk.injEq] at hk
      exact ⟨by simpa using h1, by simpa using h2, hk.1.symm, hk.2.symm⟩

/-- A content hash that was already bound is rejected first, with
"Credential for this content already issued". -/
theorem issueSingle_dupContent (s : Address) (c : String) (ch : Hash)
    (st : IssuerState) (h1 : st.contentHashIssued ch = true) :
    issueSingleCredential s c ch st = .error .duplicateContent := by
  simp [issueSingleCredential, h1]

/-- A fresh content hash under an already-recorded identifier is rejected
with "Credential already issued for this CID". -/
theorem issueSingle_dupIdentifier (s : Address) (c : String) (ch : Hash)
    (st : IssuerState) (h1 : st.contentHashIssued ch = false)
    (h2 : st.cidIssuer (keccakString c) ≠ 0) :
    issueSingleCredential s c ch st = .error .duplicateIdentifier := by
  simp [issueSingleCredential, h1, h2]

/-- A successful batch loop never clears an existing binding, never touches
revocation flags, ownership or the mirror target. -/
theorem batchLoop_inv (s : Address) (pairs : List (String × Hash))
    (st : IssuerState) (p : IssuerState × List Nat)
    (hk : batchIssueLoop s pairs st = .ok p) :
    p.1.isRevoked = st.isRevoked ∧ p.1.owner = st.owner
    ∧ p.1.targetMirrorContract = st.targetMirrorContract
    ∧ (∀ k, st.cidIssuer k ≠ 0 → p.1.cidIssuer k = st.cidIssuer k)
    ∧ (∀ k, st.contentHashIssued k = true → p.1.contentHashIssued k = true) := by
  induction pairs generalizing st p with
  | nil =>
    simp only [batchIssueLoop, Except.ok.injEq] at hk
    rw [← hk]
    exact ⟨rfl, rfl, rfl, fun _ _ => rfl, fun _ hx => hx⟩
  | cons pair rest ih =>
    obtain ⟨cid, ch⟩ := pair
    cases h1 : issueSingleCredential s cid ch st with
    | error e => simp [batchIssueLoop, h1] at hk
    | ok q =>
      obtain ⟨st1, seq⟩ := q
      cases h2 : batchIssueLoop s rest st1 with
      | error e => simp [batchIssueLoop, h1, h2] at hk
      | ok r =>
        obtain ⟨st2, seqs⟩ := r
        have hps : p.1 = st2 := by
          simp only [batchIssueLoop, h1, h2, Except.ok.injEq] at hk
          rw [← hk]
        obtain ⟨-, hzero, hrec, -⟩ := issueSingle_ok_inv s cid ch st st1 seq h1
        obtain ⟨i1, i2, i3, i4, i5⟩ := ih st1 (st2, seqs) h2
        simp only at i1 i2 i3 i4 i5
        rw [hps]
        refine ⟨by rw [i1, hrec], by rw [i2, hrec], by rw [i3, hrec], ?_, ?_⟩
        · intro k hknz
          have hs1 : st1.cidIssuer k = st.cidIssuer k := by
            rw [hrec]
            by_cases hkc : k = keccakString cid
            · subst hkc
              exact absurd hzero hknz
            · simp [hkc]
          rw [i4 k (hs1 ▸ hknz), hs1]
        · intro k hkt
          apply i5
          rw [hrec]
          by_cases hkc : k = ch
          · simp [hkc]
          · simpa [hkc] using hkt

/-- Every Issuer transaction preserves an existing revocation flag, an
existing (nonzero) identifier binding, and an existing content-hash binding. -/
theorem applyIssuerOp_inv (op : IssuerOp) (st : IssuerState) :
    (∀ k, st.isRevoked k = true → (applyIssuerOp op st).isRevoked k = true)
    ∧ (∀ k a, a ≠ 0 → st.cidIssuer k = a → (applyIssuerOp op st).cidIssuer k = a)
    ∧ (∀ k, st.contentHashIssued k = true → (applyIssuerOp op st).contentHashIssued k = true) := by
  cases op with
  | issue sender value fee cid ch =>
    by_cases hfee : value < fee
    · have happ : applyIssuerOp (.issue sender value fee cid ch) st = st := by
        simp [applyIssuerOp, issueCredential, hfee]
      rw [happ]
      exact ⟨fun _ hx => hx, fun _ _ _ hx => hx, fun _ hx => hx⟩
    · cases hk : issueSingleCredential sender cid ch st with
      | error e =>
        have happ : applyIssuerOp (.issue sender value fee cid ch) st = st := by
          simp [applyIssuerOp, issueCredential, hfee, hk]
        rw [happ]
        exact ⟨fun _ hx => hx, fun _ _ _ hx => hx, fun _ hx => hx⟩
      | ok p =>
        obtain ⟨st', q⟩ := p
        have happ : applyIssuerOp (.issue sender value fee cid ch) st = st' := by
          simp [applyIssuerOp, issueCredential, hfee, hk]
        obtain ⟨-, hzero, hrec, -⟩ := issueSingle_ok_inv sender cid ch st st' q hk
        rw [happ, hrec]
        refine ⟨fun k hx => hx, fun k a ha hx => ?_, fun k hx => ?_⟩
        · by_cases hkc : k = keccakString cid
          · subst hkc
            exact absurd (hx.symm.trans hzero) ha
          · simp only [if_neg hkc]
            exact hx
        · by_cases hkc : k = ch
          · simp [hkc]
          · simp only [if_neg hkc]
            exact hx
  | batchIssue sender value fee cids chs =>
    cases hk : batchIssueCredentials sender value fee cids chs st with
    | error e =>
      have happ : applyIssuerOp (.batchIssue sender value fee cids chs) st = st := by
        simp [applyIssuerOp, hk]
      rw [happ]
      exact ⟨fun _ hx => hx, fun _ _ _ hx => hx, fun _ hx => hx⟩
    | ok p =>
      obtain ⟨st', seqs⟩ := p
      have happ : applyIssuerOp (.batchIssue sender value fee cids chs) st = st' := by
        simp [applyIssuerOp, hk]
      have hloop : batchIssueLoop sender (cids.zip chs) st = .ok (st', seqs) := by
        unfold batchIssueCredentials at hk
        split at hk
        · exact absurd hk (by simp)
        · split at hk
          · exact absurd hk (by simp)
          · split at hk
            · exact absurd hk (by simp)
            · split at hk
              · exact absurd hk (by simp)
              · exact hk
      obtain ⟨i1, -, -, i4, i5⟩ := batchLoop_inv sender (cids.zip chs) st (st', seqs) hloop
      simp only at i1 i4 i5
      rw [happ]
      refine ⟨fun k hx => by rw [i1]; exact hx, fun k a ha hx => ?_, fun k hx => i5 k hx⟩
      rw [i4 k (by rw [hx]; exact ha), hx]
  | revoke caller cid =>
    by_cases hown : caller ≠ st.owner
    · have happ : applyIssuerOp (.revoke caller cid) st = st := by
        simp [applyIssuerOp, issuerRevokeCredential, hown]
      rw [happ]
      exact ⟨fun _ hx => hx, fun _ _ _ hx => hx, fun _ hx => hx⟩
    · by_cases hnf : st.cidIssuer (keccakString cid) = 0
      · have happ : applyIssuerOp (.revoke caller cid) st = st := by
          simp [applyIssuerOp, issuerRevokeCredential, hown, hnf]
        rw [happ]
        exact ⟨fun _ hx => hx, fun _ _ _ hx => hx, fun _ hx => hx⟩
      · by_cases hrv : st.isRevoked (keccakString cid) = true
        · have happ : applyIssuerOp (.revoke caller cid) st = st := by
            simp [applyIssuerOp, issuerRevokeCredential, hown, hnf, hrv]
          rw [happ]
          exact ⟨fun _ hx => hx, fun _ _ _ hx => hx, fun _ hx => hx⟩
        · have happ : applyIssuerOp (.revoke caller cid) st =
              { st with isRevoked := fun h => if h = keccakString cid then true else st.isRevoked h } := by
            simp [applyIssuerOp, issuerRevokeCredential, hown, hnf, hrv]
          rw [happ]
          refine ⟨fun k hx => ?_, fun _ _ _ hx => hx, fun _ hx => hx⟩
          by_cases hkc : k = keccakString cid
          · simp [hkc]
          · simp only [if_neg hkc]
            exact hx
  | setMirror caller m =>
    cases hk : setMirrorContract caller m st with
    | error e =>
      have happ : applyIssuerOp (.setMirror caller m) st = st := by
        simp [applyIssuerOp, hk]
      rw [happ]
      exact ⟨fun _ hx => hx, fun _ _ _ hx => hx, fun _ hx => hx⟩
    | ok st' =>
      have happ : applyIssuerOp (.setMirror caller m) st = st' := by
        simp [applyIssuerOp, hk]
      have hst : st' = { st with targetMirrorContract := m } := by
        unfold setMirrorContract at hk
        split at hk
        · exact absurd hk (by simp)
        · split at hk
          · exact absurd hk (by simp)
          · simpa using hk.symm
      rw [happ, hst]
      exact ⟨fun _ hx => hx, fun _ _ _ hx => hx, fun _ hx => hx⟩

/-- Lift of `applyIssuerOp_inv` to arbitrary transaction sequences. -/
theorem applyIssuerOps_inv (ops : List IssuerOp) (st : IssuerState) :
    (∀ k, st.isRevoked k = true → (applyIssuerOps ops st).isRevoked k = true)
    ∧ (∀ k a, a ≠ 0 → st.cidIssuer k = a → (applyIssuerOps ops st).cidIssuer k = a)
    ∧ (∀ k, st.contentHashIssued k = true → (applyIssuerOps ops st).contentHashIssued k = true) := by
  induction ops generalizing st with
  | nil => exact ⟨fun _ hx => hx, fun _ _ _ hx => hx, fun _ hx => hx⟩
  | cons op rest ih =>
    obtain ⟨s1, s2, s3⟩ := applyIssuerOp_inv op st
    obtain ⟨r1, r2, r3⟩ := ih (applyIssuerOp op st)
    exact ⟨fun k hx => r1 k (s1 k hx),
           fun k a ha hx => r2 k a ha (s2 k a ha hx),
           fun k hx => r3 k (s3 k hx)⟩

/-! ## Revocation lemmas on the Mirror contract -/

/-- A successful `receiveAndVerifyVAA` never touches the revocation flags or
the owner. -/
theorem receive_ok_isRevoked (env : MirrorEnv) (vaa : Bytes) (st st' : MirrorState)
    (hk : receiveAndVerifyVAA env vaa st = .ok st') :
    st'.isRevoked = st.isRevoked ∧ st'.owner = st.owner := by
  unfold receiveAndVerifyVAA at hk
  split at hk
  · exact absurd hk (by simp)
  · split at hk
    · exact absurd hk (by simp)
    · split at hk
      · exact absurd hk (by simp)
      · split at hk
        · exact absurd hk (by simp)
        · simp only [Except.ok.injEq] at hk
          rw [← hk]
          exact ⟨rfl, rfl⟩

/-- Every Mirror transaction preserves an existing revocation flag. -/
theorem applyMirrorOp_rev_mono (env : MirrorEnv) (op : MirrorOp) (st : MirrorState)
    (k : Hash) (hx : st.isRevoked k = true) :
    (applyMirrorOp env op st).isRevoked k = true := by
  cases op with
  | submitVAA vaa =>
    cases hk : receiveAndVerifyVAA env vaa st with
    | error e =>
      have happ : applyMirrorOp env (.submitVAA vaa) st = st := by
        simp [applyMirrorOp, runMirror, hk]
      rw [happ]
      exact hx
    | ok st' =>
      have happ : applyMirrorOp env (.submitVAA vaa) st = st' := by
        simp [applyMirrorOp, runMirror, hk]
      rw [happ, (receive_ok_isRevoked env vaa st st' hk).1]
      exact hx
  | revoke caller cid =>
    by_cases hown : caller ≠ st.owner
    · have happ : applyMirrorOp env (.revoke caller cid) st = st := by
        simp [applyMirrorOp, runMirror, mirrorRevokeCredential, hown]
      rw [happ]
      exact hx
    · by_cases hnf : st.cidIssuer (keccakString cid) = 0
      · have happ : applyMirrorOp env (.revoke caller cid) st = st := by
          simp [applyMirrorOp, runMirror, mirrorRevokeCredential, hown, hnf]
        rw [happ]
        exact hx
      · by_cases hrv : st.isRevoked (keccakString cid) = true
        · have happ : applyMirrorOp env (.revoke caller cid) st = st := by
            simp [applyMirrorOp, runMirror, mirrorRevokeCredential, hown, hnf, hrv]
          rw [happ]
          exact hx
        · have happ : applyMirrorOp env (.revoke caller cid) st =
              { st with isRevoked := fun h => if h = keccakString cid then true else st.isRevoked h } := by
            simp [applyMirrorOp, runMirror, mirrorRevokeCredential, hown, hnf, hrv]
          rw [happ]
          by_cases hkc : k = keccakString cid
          · simp [hkc]
          · simp only [if_neg hkc]
            exact hx

/-- Lift of `applyMirrorOp_rev_mono` to arbitrary transaction sequences. -/
theorem applyMirrorOps_rev_mono (env : MirrorEnv) (ops : List MirrorOp)
    (st : MirrorState) (k : Hash) (hx : st.isRevoked k = true) :
    (applyMirrorOps env ops st).isRevoked k = true := by
  induction ops generalizing st with
  | nil => exact hx
  | cons op rest ih => exact ih (applyMirrorOp env op st) (applyMirrorOp_rev_mono env op st k hx)

/-- C4: on both ledgers a set revocation flag survives every sequence of
transactions (no operation writes `false` into `isRevoked`); an owner revoke
of an identifier with no record fails with `NotFound`, a second owner revoke
of a revoked identifier fails with `AlreadyRevoked`, and both failed
transactions leave storage unchanged. -/
theorem C4_revocation_monotonicity :
    (∀ (ops : List IssuerOp) (st : IssuerState) (k : Hash),
        st.isRevoked k = true → (applyIssuerOps ops st).isRevoked k = true)
    ∧ (∀ (env : MirrorEnv) (ops : List MirrorOp) (st : MirrorState) (k : Hash),
        st.isRevoked k = true → (applyMirrorOps env ops st).isRevoked k = true)
    ∧ (∀ (st : IssuerState) (cid : String), st.cidIssuer (keccakString cid) = 0 →
        issuerRevokeCredential st.owner cid st = .error .notFound
        ∧ applyIssuerOp (.revoke st.owner cid) st = st)
    ∧ (∀ (st : IssuerState) (cid : String), st.cidIssuer (keccakString cid) ≠ 0 →
        st.isRevoked (keccakString cid) = true →
        issuerRevokeCredential st.owner cid st = .error .alreadyRevoked
        ∧ applyIssuerOp (.revoke st.owner cid) st = st)
    ∧ (∀ (env : MirrorEnv) (st : MirrorState) (cid : String),
        st.cidIssuer (keccakString cid) = 0 →
        mirrorRevokeCredential st.owner cid st = .error .notFound
        ∧ applyMirrorOp env (.revoke st.owner cid) st = st)
    ∧ (∀ (env : MirrorEnv) (st : MirrorState) (cid : String),
        st.cidIssuer (keccakString cid) ≠ 0 → st.isRevoked (keccakString cid) = true →
        mirrorRevokeCredential st.owner cid st = .error .alreadyRevoked
        ∧ applyMirrorOp env (.revoke st.owner cid) st = st) := by
  refine ⟨fun ops st k hx => (applyIssuerOps_inv ops st).1 k hx,
          fun env ops st k hx => applyMirrorOps_rev_mono env ops st k hx,
          fun st cid hnf => ?_, fun st cid hnz hrv => ?_,
          fun env st cid hnf => ?_, fun env st cid hnz hrv => ?_⟩
  · have herr : issuerRevokeCredential st.owner cid st = .error .notFound := by
      simp [issuerRevokeCredential, hnf]
    exact ⟨herr, by simp [applyIssuerOp, herr]⟩
  · have herr : issuerRevokeCredential st.owner cid st = .error .alreadyRevoked := by
      simp [issuerRevokeCredential, hnz, hrv]
    exact ⟨herr, by simp [applyIssuerOp, herr]⟩
  · have herr : mirrorRevokeCredential st.owner cid st = .error .notFound := by
      simp [mirrorRevokeCredential, hnf]
    exact ⟨herr, by simp [applyMirrorOp, runMirror, herr]⟩
  · have herr : mirrorRevokeCredential st.owner cid st = .error .alreadyRevoked := by
      simp [mirrorRevokeCredential, hnz, hrv]
    exact ⟨herr, by simp [applyMirrorOp, runMirror, herr]⟩

/-- C4 witness: on the Mirror ledger the revoked flag of cid hash 9 survives a
fresh attestation submission; revoking an unknown identifier on a fresh Issuer
fails with `NotFound`, and re-revoking hash 9 on the Mirror fails with
`AlreadyRevoked`, leaving storage unchanged each time. -/
theorem C4_revocation_monotonicity_witness :
    (applyMirrorOps envOk [.submitVAA [1]] mirrorRevoked9).isRevoked 9 = true
    ∧ (issuerRevokeCredential issuer0.owner "QmZZZ" issuer0 = .error .notFound
        ∧ applyIssuerOp (.revoke issuer0.owner "QmZZZ") issuer0 = issuer0)
    ∧ (mirrorRevokeCredential mirrorRevokedQmR.owner "QmR" mirrorRevokedQmR = .error .alreadyRevoked
        ∧ applyMirrorOp envOk (.revoke mirrorRevokedQmR.owner "QmR") mirrorRevokedQmR = mirrorRevokedQmR) :=
  ⟨C4_revocation_monotonicity.2.1 envOk [.submitVAA [1]] mirrorRevoked9 9 rfl,
   C4_revocation_monotonicity.2.2.1 issuer0 "QmZZZ" rfl,
   C4_revocation_monotonicity.2.2.2.2.2 envOk mirrorRevokedQmR "QmR"
     (by simp [mirrorRevokedQmR]) (by simp [mirrorRevokedQmR])⟩

/-- Once a state records `sender` (nonzero) for `cid` and has `contentHash`
bound, every further sequence of Issuer transactions keeps both bindings and
rejects every further issue of the same identifier or content hash. -/
theorem issued_frozen (st1 : IssuerState) (sender : Address) (cid : String)
    (contentHash : Hash) (hs : sender ≠ 0)
    (h1 : st1.cidIssuer (keccakString cid) = sender)
    (h2 : st1.contentHashIssued contentHash = true) (ops : List IssuerOp) :
    (applyIssuerOps ops st1).cidIssuer (keccakString cid) = sender
    ∧ (applyIssuerOps ops st1).contentHashIssued contentHash = true
    ∧ (∀ s2 v2 f2 h2x, ∃ e,
        issueCredential s2 v2 f2 cid h2x (applyIssuerOps ops st1) = .error e)
    ∧ (∀ s2 v2 f2 c2, ∃ e,
        issueCredential s2 v2 f2 c2 contentHash (applyIssuerOps ops st1) = .error e) := by
  have hcidF : (applyIssuerOps ops st1).cidIssuer (keccakString cid) = sender :=
    (applyIssuerOps_inv ops st1).2.1 (keccakString cid) sender hs h1
  have hcontF : (applyIssuerOps ops st1).contentHashIssued contentHash = true :=
    (applyIssuerOps_inv ops st1).2.2 contentHash h2
  refine ⟨hcidF, hcontF, fun s2 v2 f2 h2x => ?_, fun s2 v2 f2 c2 => ?_⟩
  · by_cases hv : v2 < f2
    · exact ⟨.insufficientFee, by simp [issueCredential, hv]⟩
    · by_cases hch : (applyIssuerOps ops st1).contentHashIssued h2x = true
      · exact ⟨.duplicateContent, by
          simp [issueCredential, hv, issueSingle_dupContent s2 cid h2x _ hch]⟩
      · exact ⟨.duplicateIdentifier, by
          simp [issueCredential, hv,
            issueSingle_dupIdentifier s2 cid h2x _ (by simpa using hch)
              (by rw [hcidF]; exact hs)]⟩
  · by_cases hv : v2 < f2
    · exact ⟨.insufficientFee, by simp [issueCredential, hv]⟩
    · exact ⟨.duplicateContent, by
        simp [issueCredential, hv, issueSingle_dupContent s2 c2 contentHash _ hcontF]⟩

/-- C2: a first issuance of `cid` with a fresh `contentHash` records the
caller as issuer and binds the content hash; from then on, whatever sequence
of Issuer transactions runs, the recorded issuer is never replaced, the
content-hash binding never clears, every further issue of the same identifier
fails, and every further issuance binding the same content hash fails — so at
most one `issue` per identifier and at most one per content hash ever
succeeds. -/
theorem C2_issuance_uniqueness (st : IssuerState) (sender : Address) (cid : String)
    (contentHash : Hash) (hs : sender ≠ 0)
    (hc : st.cidIssuer (keccakString cid) = 0)
    (hh : st.contentHashIssued contentHash = false) :
    ∃ st' seq, issueSingleCredential sender cid contentHash st = .ok (st', seq)
      ∧ st'.cidIssuer (keccakString cid) = sender
      ∧ st'.contentHashIssued contentHash = true
      ∧ ∀ ops : List IssuerOp,
          (applyIssuerOps ops st').cidIssuer (keccakString cid) = sender
          ∧ (applyIssuerOps ops st').contentHashIssued contentHash = true
          ∧ (∀ s2 v2 f2 h2, ∃ e,
              issueCredential s2 v2 f2 cid h2 (applyIssuerOps ops st') = .error e)
          ∧ (∀ s2 v2 f2 c2, ∃ e,
              issueCredential s2 v2 f2 c2 contentHash (applyIssuerOps ops st') = .error e) := by
  have hok : issueSingleCredential sender cid contentHash st = .ok
      ({ st with
          contentHashIssued := fun h => if h = contentHash then true else st.contentHashIssued h,
          cidIssuer := fun h => if h = keccakString cid then sender else st.cidIssuer h,
          nextSequence := st.nextSequence + 1 }, st.nextSequence) := by
    simp [issueSingleCredential, hh, hc]
  exact ⟨_, _, hok, by simp, by simp,
    fun ops => issued_frozen _ sender cid contentHash hs (by simp) (by simp) ops⟩

/-- C2 witness: the uniqueness theorem instantiated at a fresh Issuer,
sender 2, identifier "QmAAA" and content hash 100. -/
theorem C2_issuance_uniqueness_witness :
    ∃ st' seq, issueSingleCredential 2 "QmAAA" 100 issuer0 = .ok (st', seq)
      ∧ st'.cidIssuer (keccakString "QmAAA") = 2
      ∧ st'.contentHashIssued 100 = true
      ∧ ∀ ops : List IssuerOp,
          (applyIssuerOps ops st').cidIssuer (keccakString "QmAAA") = 2
          ∧ (applyIssuerOps ops st').contentHashIssued 100 = true
          ∧ (∀ s2 v2 f2 h2, ∃ e,
              issueCredential s2 v2 f2 "QmAAA" h2 (applyIssuerOps ops st') = .error e)
          ∧ (∀ s2 v2 f2 c2, ∃ e,
              issueCredential s2 v2 f2 c2 100 (applyIssuerOps ops st') = .error e) :=
  C2_issuance_uniqueness issuer0 2 "QmAAA" 100 (by decide) rfl rfl

/-- C5 counterexample: after `issue("QmBBB", 100)` the identifier "QmBBB"
has an issuance record, so the claim says re-issuing the exact same pair
fails with `DuplicateIdentifier`; the code checks the content hash first and
fails with `DuplicateContent` instead. -/
theorem C5_exact_pair_counterexample :
    issuerQmBBB.cidIssuer (keccakString "QmBBB") = 2
    ∧ issueCredential 2 1 1 "QmBBB" 100 issuerQmBBB = .error .duplicateContent
    ∧ IssuerError.duplicateContent ≠ IssuerError.duplicateIdentifier :=
  ⟨rfl, rfl, by decide⟩

/-- C5 (amended): the duplicate-content check runs before the identifier
check — `issue(c, h)` fails with `DuplicateContent` whenever `h` is already
bound (to any identifier, the same pair included), and fails with
`DuplicateIdentifier` whenever `h` is fresh and the identifier hash of `c`
already has a record; the spec's two concrete scenarios hold as stated. -/
theorem C5_duplicate_error_order (st : IssuerState) (sender : Address) (v f : Nat)
    (cid : String) (h : Hash) (hv : ¬ v < f) :
    (st.contentHashIssued h = true →
      issueCredential sender v f cid h st = .error .duplicateContent)
    ∧ (st.contentHashIssued h = false → st.cidIssuer (keccakString cid) ≠ 0 →
      issueCredential sender v f cid h st = .error .duplicateIdentifier)
    ∧ issueCredential 3 1 1 "QmBBB" 101 issuerQmBBB = .error .duplicateIdentifier
    ∧ issueCredential 3 1 1 "QmCCC" 100 issuerQmBBB = .error .duplicateContent := by
  refine ⟨fun hch => ?_, fun hch hcid => ?_, rfl, rfl⟩
  · simp [issueCredential, hv, issueSingle_dupContent sender cid h st hch]
  · simp [issueCredential, hv, issueSingle_dupIdentifier sender cid h st hch hcid]

/-- C5 witness: the amended error-order theorem instantiated after
`issue("QmBBB", 100)`: re-issuing content 100 under "QmDDD" fails with
`DuplicateContent`, and issuing fresh content 102 under "QmBBB" fails with
`DuplicateIdentifier`. -/
theorem C5_duplicate_error_order_witness :
    (issuerQmBBB.contentHashIssued 100 = true →
      issueCredential 3 1 1 "QmDDD" 100 issuerQmBBB = .error .duplicateContent)
    ∧ (issuerQmBBB.contentHashIssued 100 = false →
        issuerQmBBB.cidIssuer (keccakString "QmDDD") ≠ 0 →
      issueCredential 3 1 1 "QmDDD" 100 issuerQmBBB = .error .duplicateIdentifier)
    ∧ issueCredential 3 1 1 "QmBBB" 101 issuerQmBBB = .error .duplicateIdentifier
    ∧ issueCredential 3 1 1 "QmCCC" 100 issuerQmBBB = .error .duplicateContent :=
  C5_duplicate_error_order issuerQmBBB 3 1 1 "QmDDD" 100 (by decide)

/-- C6: `batchIssueCredentials` requires a non-empty batch of at most 50
pairs, equal-length arrays and a paid value of at least `fee * n`; when the
checks pass it is exactly the fold of `_issueSingleCredential` over the
zipped pairs within one transaction, and any failure anywhere reverts the
whole transaction, leaving storage unchanged. -/
theorem C6_batch_atomicity (sender : Address) (value fee : Nat)
    (cids : List String) (chs : List Hash) (st : IssuerState) :
    (cids.length = 0 →
      batchIssueCredentials sender value fee cids chs st = .error .emptyBatch)
    ∧ (cids.length > 50 →
      batchIssueCredentials sender value fee cids chs st = .error .batchTooLarge)
    ∧ (cids.length ≠ 0 → ¬ cids.length > 50 → cids.length ≠ chs.length →
      batchIssueCredentials sender value fee cids chs st = .error .lengthMismatch)
    ∧ (cids.length ≠ 0 → ¬ cids.length > 50 → cids.length = chs.length →
        value < fee * cids.length →
      batchIssueCredentials sender value fee cids chs st = .error .insufficientBatchFee)
    ∧ (cids.length ≠ 0 → ¬ cids.length > 50 → cids.length = chs.length →
        ¬ value < fee * cids.length →
      batchIssueCredentials sender value fee cids chs st =
        batchIssueLoop sender (cids.zip chs) st)
    ∧ (∀ e, batchIssueCredentials sender value fee cids chs st = .error e →
      applyIssuerOp (.batchIssue sender value fee cids chs) st = st) := by
  refine ⟨fun h0 => ?_, fun h50 => ?_, fun h0 h50 hlen => ?_,
          fun h0 h50 hlen hval => ?_, fun h0 h50 hlen hval => ?_,
          fun e he => ?_⟩
  · simp [batchIssueCredentials, h0]
  · have h0 : cids.length ≠ 0 := by omega
    simp [batchIssueCredentials, h0, h50]
  · simp [batchIssueCredentials, h0, h50, hlen]
  · have hval' : value < fee * chs.length := by
      rw [← hlen]
      exact hval
    have h0' : chs ≠ [] := fun hnil => h0 (by rw [hnil] at hlen; simpa using hlen)
    have h50' : ¬ 50 < chs.length := by omega
    simp [batchIssueCredentials, h0', h50', hlen, hval']
  · have hval' : ¬ value < fee * chs.length := by
      rw [← hlen]
      exact hval
    have h0' : chs ≠ [] := fun hnil => h0 (by rw [hnil] at hlen; simpa using hlen)
    have h50' : ¬ 50 < chs.length := by omega
    simp [batchIssueCredentials, h0', h50', hlen, hval']
  · simp [applyIssuerOp, he]

/-- C6 witness: an empty batch is rejected; a well-formed 2-element batch
reduces to the per-pair single-issue fold; an underpaid batch reverts and
leaves storage unchanged. -/
theorem C6_batch_atomicity_witness :
    batchIssueCredentials 2 0 0 [] [] issuer0 = .error .emptyBatch
    ∧ batchIssueCredentials 2 2 1 ["QmAAA", "QmEEE"] [100, 101] issuer0 =
        batchIssueLoop 2 (List.zip ["QmAAA", "QmEEE"] [100, 101]) issuer0
    ∧ applyIssuerOp (.batchIssue 2 0 1 ["QmAAA"] [100]) issuer0 = issuer0 :=
  ⟨(C6_batch_atomicity 2 0 0 [] [] issuer0).1 rfl,
   (C6_batch_atomicity 2 2 1 ["QmAAA", "QmEEE"] [100, 101] issuer0).2.2.2.2.1
     (by decide) (by decide) (by decide) (by decide),
   (C6_batch_atomicity 2 0 1 ["QmAAA"] [100] issuer0).2.2.2.2.2 .insufficientBatchFee
     ((C6_batch_atomicity 2 0 1 ["QmAAA"] [100] issuer0).2.2.2.1
       (by decide) (by decide) (by decide) (by decide))⟩

/-! ## Lemmas on the relayer's attestation-acquisition loop -/

/-- If every remaining attempt yields nothing, the loop exhausts. -/
theorem fetchLoop_all_none (svc : Nat → Option Bytes) :
    ∀ (r a : Nat), (∀ i, i < r → svc (a + i) = none) →
      fetchLoop svc a r = .error .exhausted := by
  intro r
  induction r with
  | zero => intro a _; rfl
  | succ r' ih =>
    intro a h
    have h0 : svc a = none := by simpa using h 0 (Nat.succ_pos r')
    cases r' with
    | zero => simp [fetchLoop, h0]
    | succ r'' =>
      have hstep : fetchLoop svc a (r'' + 2) = fetchLoop svc (a + 1) (r'' + 1) := by
        simp [fetchLoop, h0]
      rw [show r'' + 1 + 1 = r'' + 2 by omega, hstep]
      refine ih (a + 1) (fun i hi => ?_)
      have := h (i + 1) (by omega)
      rw [show a + 1 + i = a + (i + 1) by omega]
      exact this

/-- The loop returns the bytes of the first attempt that yields them, as long
as that attempt is within the remaining budget. -/
theorem fetchLoop_first_some (svc : Nat → Option Bytes) (b : Bytes) :
    ∀ (i0 a r : Nat), (∀ i, i < i0 → svc (a + i) = none) →
      svc (a + i0) = some b → i0 < r →
      fetchLoop svc a r = .ok b := by
  intro i0
  induction i0 with
  | zero =>
    intro a r h hs hr
    simp only [Nat.add_zero] at hs
    cases r with
    | zero => omega
    | succ r' =>
      cases r' with
      | zero => simp [fetchLoop, hs]
      | succ r'' =>
        rw [show r'' + 1 + 1 = r'' + 2 by omega]
        simp [fetchLoop, hs]
  | succ i0' ih =>
    intro a r h hs hr
    have h0 : svc a = none := by simpa using h 0 (Nat.succ_pos i0')
    cases r with
    | zero => omega
    | succ r' =>
      cases r' with
      | zero => omega
      | succ r'' =>
        have hstep : fetchLoop svc a (r'' + 2) = fetchLoop svc (a + 1) (r'' + 1) := by
          simp [fetchLoop, h0]
        rw [show r'' + 1 + 1 = r'' + 2 by omega, hstep]
        refine ih (a + 1) (r'' + 1) (fun i hi => ?_) ?_ (by omega)
        · have := h (i + 1) (by omega)
          rw [show a + 1 + i = a + (i + 1) by omega]
          exact this
        · rw [show a + 1 + i0' = a + (i0' + 1) by omega]
          exact hs

/-- The acquisition loop makes at most `maxAttempts` service queries. -/
theorem fetchLoopTrace_attempts_le (svc : Nat → Option Bytes) (seq : Nat) :
    ∀ (r a : Nat), ((fetchLoopTrace svc seq a r).1.countP isFetchAttempt) ≤ r := by
  intro r
  induction r with
  | zero => intro a; simp [fetchLoopTrace]
  | succ r' ih =>
    intro a
    cases r' with
    | zero =>
      cases hs : svc a with
      | some vaa => simp [fetchLoopTrace, hs, List.countP_cons, isFetchAttempt]
      | none => simp [fetchLoopTrace, hs, List.countP_cons, isFetchAttempt]
    | succ r'' =>
      rw [show r'' + 1 + 1 = r'' + 2 by omega]
      cases hs : svc a with
      | some vaa => simp [fetchLoopTrace, hs, List.countP_cons, isFetchAttempt]
      | none =>
        have := ih (a + 1)
        rw [show r'' + 1 = r'' + 0 + 1 by omega] at this
        simp [fetchLoopTrace, hs, List.countP_cons, isFetchAttempt]
        simp only [Nat.add_zero] at this
        omega

/-- C7: the acquisition stage is bounded — 60 attempts at a fixed 30 s delay;
it returns the attestation bytes at the first attempt that yields them (all
earlier "not yet available" responses are retried, not errors); if every
attempt within the budget yields nothing it fails with exhaustion, and that
failure only ends this sequence's processing: the event loop continues with
the remaining events and the poll cycle still ends by rescheduling itself. -/
theorem C7_acquisition_bounded (svc : Nat → Option Bytes) :
    maxAttempts = 60 ∧ delayMs = 30000
    ∧ (∀ (k : Nat) (b : Bytes), 1 ≤ k → k ≤ maxAttempts →
        (∀ j, 1 ≤ j → j < k → svc j = none) → svc k = some b →
        fetchVAAWithRetry svc = .ok b)
    ∧ ((∀ j, 1 ≤ j → j ≤ maxAttempts → svc j = none) →
        fetchVAAWithRetry svc = .error .exhausted)
    ∧ (∀ seq, ((fetchLoopTrace svc seq 1 maxAttempts).1.countP isFetchAttempt) ≤ maxAttempts)
    ∧ (∀ (env : PollEnv) (seq : Nat) (rest : List Nat),
        processEventsTrace env [] (seq :: rest) =
          processEventTrace env seq ++ processEventsTrace env [] rest)
    ∧ (∀ (env : PollEnv) (last : Nat),
        ((pollCycleTrace env last).1).getLast? = some (.reschedule delayMs)) := by
  refine ⟨rfl, rfl, fun k b hk1 hk60 hnone hsome => ?_, fun hall => ?_,
          fun seq => fetchLoopTrace_attempts_le svc seq maxAttempts 1,
          fun env seq rest => by simp [processEventsTrace],
          fun env last => ?_⟩
  · unfold fetchVAAWithRetry
    refine fetchLoop_first_some svc b (k - 1) 1 maxAttempts (fun i hi => ?_) ?_ (by omega)
    · exact hnone (1 + i) (by omega) (by omega)
    · rw [show 1 + (k - 1) = k by omega]
      exact hsome
  · unfold fetchVAAWithRetry
    exact fetchLoop_all_none svc maxAttempts 1
      (fun i hi => hall (1 + i) (by omega) (by omega))
  · unfold pollCycleTrace
    split
    · rw [show RelayerAction.scan (last + 1) env.latestBlock ::
            processEventsTrace env [] env.events ++
            [RelayerAction.advanceCursor env.latestBlock, RelayerAction.reschedule delayMs] =
          (RelayerAction.scan (last + 1) env.latestBlock ::
            processEventsTrace env [] env.events ++
            [RelayerAction.advanceCursor env.latestBlock]) ++
            [RelayerAction.reschedule delayMs] by simp]
      exact List.getLast?_concat _
    · rfl

/-- C7 witness: with the service answering from the second attempt on, the
retry loop succeeds with those bytes; with the service never answering, it
exhausts; and the concrete one-event poll cycle still ends by rescheduling. -/
theorem C7_acquisition_bounded_witness :
    fetchVAAWithRetry (envOneEvent.svc 7) = .ok [1]
    ∧ fetchVAAWithRetry (fun _ => none) = .error .exhausted
    ∧ ((pollCycleTrace envOneEvent 0).1).getLast? = some (.reschedule delayMs) :=
  ⟨(C7_acquisition_bounded (envOneEvent.svc 7)).2.2.1 2 [1] (by decide) (by decide)
      (fun j h1 h2 => by
        have hj : j = 1 := by omega
        subst hj
        rfl)
      rfl,
   (C7_acquisition_bounded (fun _ => none)).2.2.2.1 (fun _ _ _ => rfl),
   (C7_acquisition_bounded (fun _ => none)).2.2.2.2.2.2 envOneEvent 0⟩

/-- C8: delivery never throws (it is a total function into `Bool`): a
confirmed submission reports success, and a failed submission reports success
exactly when its message contains "already known" or "VAA already processed"
(the destination already consumed this attestation) — every other failure
reports `false`, the genuine-error outcome. -/
theorem C8_delivery_error_classification :
    (∀ m : String, relayVAA (.failed m) =
      (strIncludes m "already known" || strIncludes m "VAA already processed"))
    ∧ relayVAA .confirmed = true := by
  refine ⟨fun m => ?_, rfl⟩
  cases h : strIncludes m "already known" || strIncludes m "VAA already processed" with
  | true => simp [relayVAA, h]
  | false => simp [relayVAA, h]

/-! ## Lemmas on the poll cycle's action traces -/

/-- Every action recorded by the acquisition loop is a delivery action. -/
theorem fetchLoopTrace_actions (svc : Nat → Option Bytes) (seq : Nat) :
    ∀ (r a : Nat), ∀ x ∈ (fetchLoopTrace svc seq a r).1, isDeliveryAction x = true := by
  intro r
  induction r with
  | zero => intro a x hx; simp [fetchLoopTrace] at hx
  | succ r' ih =>
    intro a x hx
    cases r' with
    | zero =>
      cases hs : svc a with
      | some vaa =>
        simp [fetchLoopTrace, hs] at hx
        simp [hx, isDeliveryAction]
      | none =>
        simp [fetchLoopTrace, hs] at hx
        rcases hx with hx | hx <;> simp [hx, isDeliveryAction]
    | succ r'' =>
      rw [show r'' + 1 + 1 = r'' + 2 by omega] at hx
      cases hs : svc a with
      | some vaa =>
        simp [fetchLoopTrace, hs] at hx
        simp [hx, isDeliveryAction]
      | none =>
        simp only [fetchLoopTrace, hs, List.mem_cons] at hx
        rcases hx with hx | hx
        · simp [hx, isDeliveryAction]
        · exact ih (a + 1) x (by simpa using hx)

/-- Every action recorded while processing one event is a delivery action. -/
theorem processEventTrace_actions (env : PollEnv) (seq : Nat) :
    ∀ x ∈ processEventTrace env seq, isDeliveryAction x = true := by
  intro x hx
  unfold processEventTrace at hx
  cases hf : (fetchLoopTrace (env.svc seq) seq 1 maxAttempts).2 with
  | none =>
    rw [hf] at hx
    exact fetchLoopTrace_actions (env.svc seq) seq maxAttempts 1 x hx
  | some vaa =>
    rw [hf] at hx
    rcases List.mem_append.mp hx with hx | hx
    · exact fetchLoopTrace_actions (env.svc seq) seq maxAttempts 1 x hx
    · simp at hx
      cases hr : relayVAA (env.submit seq) with
      | true => rw [hr] at hx; simp [hx, isDeliveryAction]
      | false => rw [hr] at hx; simp [hx, isDeliveryAction]

/-- Every action recorded by the event loop is a delivery action: the loop
never scans, never advances the cursor, never reschedules. -/
theorem processEventsTrace_actions (env : PollEnv) (inflight : List Nat) :
    ∀ (events : List Nat), ∀ x ∈ processEventsTrace env inflight events,
      isDeliveryAction x = true := by
  intro events
  induction events with
  | nil => intro x hx; simp [processEventsTrace] at hx
  | cons seq rest ih =>
    intro x hx
    unfold processEventsTrace at hx
    split at hx
    · exact ih x hx
    · rcases List.mem_append.mp hx with hx | hx
      · exact processEventTrace_actions env seq x hx
      · exact ih x hx

/-- C9 counterexample: with the chain head at block 5 and one discovered
sequence (7) whose attestation only arrives at the second fetch attempt, the
poll cycle's trace runs both fetch attempts (a 30 s suspension between them)
and the delivery strictly before the single cursor advance — the cursor is
not advanced while the delivery is waiting, contradicting the claim that a
delivery's suspension never blocks the discovery loop. -/
theorem C9_blocking_counterexample :
    pollCycleTrace envOneEvent 0 =
      ([.scan 1 5, .fetchAttempt 7 1, .fetchAttempt 7 2, .deliverOk 7,
        .advanceCursor 5, .reschedule 30000], 5)
    ∧ RelayerAction.advanceCursor 5 ∉ (pollCycleTrace envOneEvent 0).1.take 4 := by
  constructor
  · rfl
  · decide

/-- C9 (amended): the discovery loop processes every discovered sequence
inline and sequentially — the poll cycle's trace is the scan, then only
delivery actions (all fetch attempts and submissions run to completion, with
no interleaved scan or cursor advance), then one cursor advance to the
scanned head and the reschedule; moreover the in-flight set never suppresses
a repeated sequence across completed processing, since each id is removed
before the next event is examined. -/
theorem C9_sequential_discovery (env : PollEnv) (last : Nat)
    (hnew : last + 1 ≤ env.latestBlock) :
    (pollCycleTrace env last).1 =
      RelayerAction.scan (last + 1) env.latestBlock ::
        processEventsTrace env [] env.events ++
        [.advanceCursor env.latestBlock, .reschedule delayMs]
    ∧ (∀ a ∈ processEventsTrace env [] env.events, isDeliveryAction a = true)
    ∧ (pollCycleTrace env last).2 = env.latestBlock
    ∧ (∀ seq rest, processEventsTrace env [] (seq :: seq :: rest) =
        processEventTrace env seq ++ processEventTrace env seq ++
          processEventsTrace env [] rest) := by
  refine ⟨by simp [pollCycleTrace, hnew], processEventsTrace_actions env [] env.events,
          by simp [pollCycleTrace, hnew], fun seq rest => ?_⟩
  simp [processEventsTrace]

/-- C9 witness: the amended sequential-discovery theorem instantiated at the
concrete one-event environment. -/
theorem C9_sequential_discovery_witness :
    (pollCycleTrace envOneEvent 0).1 =
      RelayerAction.scan 1 5 ::
        processEventsTrace envOneEvent [] [7] ++
        [.advanceCursor 5, .reschedule delayMs]
    ∧ (∀ a ∈ processEventsTrace envOneEvent [] [7], isDeliveryAction a = true)
    ∧ (pollCycleTrace envOneEvent 0).2 = 5
    ∧ (∀ seq rest, processEventsTrace envOneEvent [] (seq :: seq :: rest) =
        processEventTrace envOneEvent seq ++ processEventTrace envOneEvent seq ++
          processEventsTrace envOneEvent [] rest) :=
  C9_sequential_discovery envOneEvent 0 (by decide)

end CredentialBridge
